import Mathlib

/-!
Verification of the bucket-notification coalescing library (`bucket.ts` and
`s3/bucket.ts`): a shallow embedding of its data model and operations, with
theorems about the registration / finalization behaviour.

The library buffers per-bucket subscription requests in a process-wide map and,
on the `beforeExit` hook, swaps the map for a fresh one and declares exactly one
aggregate `BucketNotification` resource per bucket found in the snapshot.
-/

namespace AwsServerless

/-- Bucket identity: an opaque handle to a storage bucket, compared by object
identity (the TypeScript code keys a `Map` on the `s3.Bucket` object itself).
We model object identities as natural numbers. -/
abbrev Bucket := Nat

/-- One entry of `bucketSubscriptionInfos`: the record pushed by the
`BucketEventSubscription` constructor (interface `SubscriptionInfo` in both
TypeScript files).  `lambdaFunctionArn` is a deferred-resolution value
(`pulumi.Output<string>`); we model it as the opaque token produced for the
subscription's lambda function.  `permission` is the handle of the
`aws.lambda.Permission` resource, modelled by its logical name. -/
structure SubscriptionInfo where
  name : String
  events : List String
  filterPrefix : Option String
  filterSuffix : Option String
  lambdaFunctionArn : String
  permission : String
  deriving DecidableEq, Repr

/-- The process-wide registry `bucketSubscriptionInfos : Map<s3.Bucket,
SubscriptionInfo[]>`, modelled as an association list in key-insertion order
(a JavaScript `Map` iterates keys in insertion order). -/
abbrev Registry := List (Bucket × List SubscriptionInfo)

/-- The registration step performed at the end of the `BucketEventSubscription`
constructor: `let subscriptions = bucketSubscriptionInfos.get(bucket); if
(!subscriptions) { subscriptions = []; bucketSubscriptionInfos.set(bucket,
subscriptions); } subscriptions.push(info)` — append `i` to the list of the
first entry keyed by `b`, or add a new key at the end of the map. -/
def registerInfo (reg : Registry) (b : Bucket) (i : SubscriptionInfo) : Registry :=
  match reg with
  | [] => [(b, [i])]
  | (b0, l) :: rest =>
    if b = b0 then (b0, l ++ [i]) :: rest
    else (b0, l) :: registerInfo rest b i

/-- One element of the `lambdaFunctions` property of an
`aws.s3.BucketNotification` resource. -/
structure LambdaFunctionEntry where
  events : List String
  filterPrefix : Option String
  filterSuffix : Option String
  lambdaFunctionArn : String
  deriving DecidableEq, Repr

/-- An `aws.s3.BucketNotification` resource declaration as produced by the
`beforeExit` handler: logical name, the bucket it configures, its
`lambdaFunctions` property, its parent resource and its `dependsOn` list
(the permission handles). -/
structure BucketNotification where
  name : String
  bucket : Bucket
  lambdaFunctions : List LambdaFunctionEntry
  parent : Bucket
  dependsOn : List String
  deriving DecidableEq, Repr

/-- The projection `subscription => ({events, filterPrefix, filterSuffix,
lambdaFunctionArn})` used to build the `lambdaFunctions` property. -/
def toEntry (s : SubscriptionInfo) : LambdaFunctionEntry :=
  { events := s.events
    filterPrefix := s.filterPrefix
    filterSuffix := s.filterSuffix
    lambdaFunctionArn := s.lambdaFunctionArn }

/-- The loop body of the `beforeExit` handler for one `[bucket, subscriptions]`
pair: declare `new aws.s3.BucketNotification(subscriptions[0].name, {bucket:
bucket.id, lambdaFunctions: subscriptions.map(...)}, {parent: bucket,
dependsOn: subscriptions.map(s => s.permission)})`.  On an empty list,
`subscriptions[0]` is `undefined` and reading `.name` throws a `TypeError`;
that failure is modelled as `none`. -/
def processBucket (b : Bucket) (subs : List SubscriptionInfo) : Option BucketNotification :=
  match subs with
  | [] => none
  | first :: _ =>
    some { name := first.name
           bucket := b
           lambdaFunctions := subs.map toEntry
           parent := b
           dependsOn := subs.map (fun s => s.permission) }

/-- The `for (const [bucket, subscriptions] of copy)` loop of the `beforeExit`
handler: declare one `BucketNotification` per snapshot entry, in map order.
Returns the list of declared resources together with a crash flag; a thrown
`TypeError` (empty subscription list) aborts the loop, keeping the resources
declared before the fault. -/
def declareAll : Registry → List BucketNotification × Bool
  | [] => ([], false)
  | (b, subs) :: rest =>
    match processBucket b subs with
    | none => ([], true)
    | some n =>
      let p := declareAll rest
      (n :: p.1, p.2)

/-- Process-level state: the live registry, every `BucketNotification`
declared so far (in declaration order), and whether an uncaught exception has
terminated the process. -/
structure ProcState where
  registry : Registry
  declared : List BucketNotification
  crashed : Bool
  deriving DecidableEq, Repr

/-- Initial process state: empty registry, nothing declared. -/
def initState : ProcState := { registry := [], declared := [], crashed := false }

/-- Observable program actions: a registration (the registry mutation done by
a subscribe call) and one firing of the `beforeExit` finalization hook. -/
inductive Action where
  | register (b : Bucket) (i : SubscriptionInfo)
  | beforeExit
  deriving DecidableEq, Repr

/-- One step of the program run.  `register` appends to the live registry.
`beforeExit` is the handler `() => { const copy = bucketSubscriptionInfos;
bucketSubscriptionInfos = new Map(); for (...) {...} }`: it swaps the live
registry for a fresh empty map, then declares the snapshot's resources.
After a crash the process is dead and no further step has an effect. -/
def step (s : ProcState) (a : Action) : ProcState :=
  if s.crashed then s else
  match a with
  | .register b i => { s with registry := registerInfo s.registry b i }
  | .beforeExit =>
    let p := declareAll s.registry
    { registry := [], declared := s.declared ++ p.1, crashed := p.2 }

/-- A whole program run from the initial state. -/
def run (acts : List Action) : ProcState := acts.foldl step initState

/-- Arguments of the convenience helpers of `bucket.ts` (`SimpleBucketSubscriptionArgs`):
optional key filters only. -/
structure SimpleBucketSubscriptionArgs where
  filterPrefix : Option String
  filterSuffix : Option String
  deriving DecidableEq, Repr

/-- Arguments of the generic entry point (`BucketSubscriptionArgs` /
`BucketEventSubscriptionArgs`): the filters plus the raw `events` list. -/
structure BucketSubscriptionArgs where
  events : List String
  filterPrefix : Option String
  filterSuffix : Option String
  deriving DecidableEq, Repr

/-- Error conditions a subscribe call could report synchronously.  The spec
names an `InvalidArgument` condition; the embedding makes the subscribe entry
points return `Except SubError` so that "fails at the call site" is statable. -/
inductive SubError where
  | invalidArgument
  deriving DecidableEq, Repr

/-- Resource-declaration effects of a subscribe call: the live registry of the
enclosing module plus the logical names of the lambda-function and permission
resources declared so far. -/
structure Env where
  registry : Registry
  functions : List String
  permissions : List String
  deriving DecidableEq, Repr

/-- An environment in which nothing has been declared or registered yet. -/
def emptyEnv : Env := { registry := [], functions := [], permissions := [] }

/-- Modelled from the spec: `createLambdaFunction` is defined in `function.ts`,
which is not among the sources; the spec treats it as the external
"function-packaging/deployment helper that turns a handler into a deployable
compute resource" with no behaviour relevant to coalescing.  We model it as
declaring one compute resource under the given logical name and returning the
deferred ARN token of that function (the `handler` argument plays no further
role and is omitted). -/
def createLambdaFunction (name : String) (e : Env) : Env × String :=
  ({ e with functions := e.functions ++ [name] }, "arn:" ++ name)

/-- What a subscribe call hands back to the caller: the permission handle and
the owning bucket (the observable fields of `BucketEventSubscription`). -/
structure SubscriptionHandle where
  permission : String
  bucket : Bucket
  deriving DecidableEq, Repr

/-- The `BucketEventSubscription` constructor body, identical in both files:
the `super(...)` call into `EventSubscription` (defined in `subscription.ts`,
treated by the spec as an out-of-scope base that merely carries the function
and permission handles) declares nothing relevant here; then
`new aws.lambda.Permission(name, ...)` is declared under the subscription's
logical name, and the subscription record is pushed onto the module registry.
There is no validation of `args` anywhere in the body. -/
def bucketEventSubscriptionNew (name : String) (bucket : Bucket) (funcArn : String)
    (args : BucketSubscriptionArgs) (e : Env) : Env × SubscriptionHandle :=
  let info : SubscriptionInfo :=
    { name := name
      events := args.events
      filterPrefix := args.filterPrefix
      filterSuffix := args.filterSuffix
      lambdaFunctionArn := funcArn
      permission := name }
  ( { e with
      permissions := e.permissions ++ [name]
      registry := registerInfo e.registry bucket info }
  , { permission := name, bucket := bucket } )

/-- Model of `onEvent` in `bucket.ts`: create the lambda function under
`name + "-bucket-subscription"`, then run the `BucketEventSubscription`
constructor.  The source contains no check on `args.events` and no throwing
path, so every branch returns `Except.ok`. -/
def onEvent (name : String) (bucket : Bucket) (args : BucketSubscriptionArgs)
    (e : Env) : Except SubError (Env × SubscriptionHandle) :=
  let p := createLambdaFunction (name ++ "-bucket-subscription") e
  Except.ok (bucketEventSubscriptionNew name bucket p.2 args p.1)

/-- Model of `onPut` in `bucket.ts`: default the optional args, fix
`events = ["s3:ObjectCreated:*"]`, delegate to `onEvent` under the suffixed
name `name + "-put"`; the filters are spread through unchanged. -/
def onPut (name : String) (bucket : Bucket) (args : Option SimpleBucketSubscriptionArgs)
    (e : Env) : Except SubError (Env × SubscriptionHandle) :=
  let a := args.getD { filterPrefix := none, filterSuffix := none }
  onEvent (name ++ "-put") bucket
    { events := ["s3:ObjectCreated:*"]
      filterPrefix := a.filterPrefix
      filterSuffix := a.filterSuffix } e

/-- Model of `onDelete` in `bucket.ts`: like `onPut` with category `ObjectRemoved` and
suffix `"-delete"`. -/
def onDelete (name : String) (bucket : Bucket) (args : Option SimpleBucketSubscriptionArgs)
    (e : Env) : Except SubError (Env × SubscriptionHandle) :=
  let a := args.getD { filterPrefix := none, filterSuffix := none }
  onEvent (name ++ "-delete") bucket
    { events := ["s3:ObjectRemoved:*"]
      filterPrefix := a.filterPrefix
      filterSuffix := a.filterSuffix } e

namespace S3

/-- Arguments of `onObjectCreated` in `s3/bucket.ts`.  The TypeScript type of
`event` is the string-literal union `"*" | "Put" | "Post" | "Copy" |
"CompleteMultipartUpload"`; it is modelled as an optional string so that the
JavaScript runtime behaviour on arbitrary strings (including `""`) is
captured. -/
structure ObjectCreatedSubscriptionArgs where
  filterPrefix : Option String
  filterSuffix : Option String
  event : Option String
  deriving DecidableEq, Repr

/-- Arguments of `onObjectRemoved`; `event` has TypeScript type
`"*" | "Delete" | "DeleteMarkerCreated"`, modelled as above. -/
structure ObjectRemovedSubscriptionArgs where
  filterPrefix : Option String
  filterSuffix : Option String
  event : Option String
  deriving DecidableEq, Repr

/-- JavaScript `args.event || "*"`: `undefined` and the empty string are both
falsy, so both default to `"*"`. -/
def jsOrStar (q : Option String) : String :=
  match q with
  | none => "*"
  | some s => if s = "" then "*" else s

/-- Model of `onEvent` in `s3/bucket.ts`: identical to the one in `bucket.ts` except
that the lambda function is named `name + "-bucket-event"`.  It operates on
that file's own module-level registry, so scenarios about this file use their
own `Env`. -/
def onEvent (name : String) (bucket : Bucket) (args : BucketSubscriptionArgs)
    (e : Env) : Except SubError (Env × SubscriptionHandle) :=
  let p := createLambdaFunction (name ++ "-bucket-event") e
  Except.ok (bucketEventSubscriptionNew name bucket p.2 args p.1)

/-- Model of `onObjectCreated` in `s3/bucket.ts`: `args.event = args.event || "*"`,
then delegate to `onEvent` under `name + "-object-created"` with
`events = ["s3:ObjectCreated:" + args.event]` and the filters copied over. -/
def onObjectCreated (name : String) (bucket : Bucket)
    (args : Option ObjectCreatedSubscriptionArgs) (e : Env) :
    Except SubError (Env × SubscriptionHandle) :=
  let a := args.getD { filterPrefix := none, filterSuffix := none, event := none }
  S3.onEvent (name ++ "-object-created") bucket
    { events := ["s3:ObjectCreated:" ++ jsOrStar a.event]
      filterPrefix := a.filterPrefix
      filterSuffix := a.filterSuffix } e

/-- Model of `onObjectRemoved` in `s3/bucket.ts`: as `onObjectCreated` with category
`ObjectRemoved` and suffix `"-object-removed"`. -/
def onObjectRemoved (name : String) (bucket : Bucket)
    (args : Option ObjectRemovedSubscriptionArgs) (e : Env) :
    Except SubError (Env × SubscriptionHandle) :=
  let a := args.getD { filterPrefix := none, filterSuffix := none, event := none }
  S3.onEvent (name ++ "-object-removed") bucket
    { events := ["s3:ObjectRemoved:" ++ jsOrStar a.event]
      filterPrefix := a.filterPrefix
      filterSuffix := a.filterSuffix } e

end S3

/-- The most recently registered subscription record for bucket `b` in
environment `e`: the last element of the list the registry maps `b` to. -/
def lastRegistered (e : Env) (b : Bucket) : Option SubscriptionInfo :=
  ((e.registry.lookup b).getD []).getLast?

/-- Fine-grained state for the re-entrancy analysis: the live registry, the
part of a captured snapshot not yet turned into resources, the resources
declared so far, and the crash flag. -/
structure FinState where
  registry : Registry
  pending : Registry
  declared : List BucketNotification
  crashed : Bool
  deriving DecidableEq, Repr

/-- Micro-steps of the finalization protocol, exposing the interleavings the
spec describes: a `register` call, the atomic swap performed at the top of the
`beforeExit` handler (`const copy = ...; bucketSubscriptionInfos = new Map()`),
and the declaration of one bucket's aggregate resource from the snapshot. -/
inductive MicroStep where
  | register (b : Bucket) (i : SubscriptionInfo)
  | fireSwap
  | declareOne
  deriving DecidableEq, Repr

/-- Semantics of one micro-step.  `register` mutates only the live registry;
`fireSwap` moves the live registry to the pending snapshot and installs a
fresh empty map before anything is declared; `declareOne` converts the first
pending entry into its aggregate resource (crashing, as the source does, if
that entry's list is empty).  A crashed process ignores every step. -/
def microStep (s : FinState) (a : MicroStep) : FinState :=
  if s.crashed then s else
  match a with
  | .register b i => { s with registry := registerInfo s.registry b i }
  | .fireSwap => { s with registry := [], pending := s.pending ++ s.registry }
  | .declareOne =>
    match s.pending with
    | [] => s
    | (b, subs) :: rest =>
      match processBucket b subs with
      | none => { s with pending := [], crashed := true }
      | some n => { s with pending := rest, declared := s.declared ++ [n] }

/-- A sequence of micro-steps from a given state. -/
def microRun (acts : List MicroStep) (s : FinState) : FinState := acts.foldl microStep s

/-- Every subscription list stored in the registry is non-empty. -/
def allNonEmpty (reg : Registry) : Prop := ∀ p ∈ reg, p.2 ≠ []

/-- Predicate: `res` is a successful subscribe call that registered, against
bucket `b`, a request with the given `events` list and filters. -/
def registersRequest (res : Except SubError (Env × SubscriptionHandle)) (b : Bucket)
    (evs : List String) (fp fs : Option String) : Prop :=
  ∃ r, res = Except.ok r ∧ ∃ i, lastRegistered r.1 b = some i ∧
    i.events = evs ∧ i.filterPrefix = fp ∧ i.filterSuffix = fs

/-- Predicate: `res` is a successful subscribe call that registered, against
bucket `b`, a request whose logical name is `nm`. -/
def registersUnder (res : Except SubError (Env × SubscriptionHandle)) (b : Bucket)
    (nm : String) : Prop :=
  ∃ r, res = Except.ok r ∧ ∃ i, lastRegistered r.1 b = some i ∧ i.name = nm

/-- Predicate: `res` is a successful subscribe call after which finalizing the resulting
registry declares, for bucket `b`, exactly one aggregate resource, with
logical name `nm`. -/
def firstAggregateNamed (res : Except SubError (Env × SubscriptionHandle)) (b : Bucket)
    (nm : String) : Prop :=
  ∃ r, res = Except.ok r ∧
    (((declareAll r.1.registry).1.filter (fun n => n.bucket == b)).map
      (fun n => n.name)) = [nm]

/-- Sample subscription record used by concrete witnesses. -/
def subA : SubscriptionInfo :=
  { name := "a", events := ["s3:ObjectCreated:*"], filterPrefix := none,
    filterSuffix := none, lambdaFunctionArn := "arn:a", permission := "a" }

/-- Second sample subscription record used by concrete witnesses. -/
def subB : SubscriptionInfo :=
  { name := "b", events := ["s3:ObjectRemoved:*"], filterPrefix := some "p",
    filterSuffix := some "s", lambdaFunctionArn := "arn:b", permission := "b" }

theorem registerInfo_allNonEmpty (reg : Registry) (b : Bucket) (i : SubscriptionInfo)
    (h : allNonEmpty reg) : allNonEmpty (registerInfo reg b i) := by
  induction reg with
  | nil =>
    intro p hp
    simp only [registerInfo, List.mem_singleton] at hp
    subst hp
    simp
  | cons q rest ih =>
    intro p hp
    rcases q with ⟨b0, l⟩
    by_cases hb : b = b0
    · simp only [registerInfo, if_pos hb, List.mem_cons] at hp
      rcases hp with hp | hp
      · subst hp; simp
      · exact h p (List.mem_cons_of_mem _ hp)
    · simp only [registerInfo, if_neg hb, List.mem_cons] at hp
      rcases hp with hp | hp
      · subst hp; exact h (b0, l) (List.mem_cons_self _ _)
      · exact ih (fun p hp => h p (List.mem_cons_of_mem _ hp)) p hp

theorem declareAll_noCrash (reg : Registry) (h : allNonEmpty reg) :
    (declareAll reg).2 = false := by
  induction reg with
  | nil => rfl
  | cons q rest ih =>
    rcases q with ⟨b, subs⟩
    have hs : subs ≠ [] := h (b, subs) (List.mem_cons_self _ _)
    rcases subs with _ | ⟨f, r⟩
    · exact absurd rfl hs
    · simp only [declareAll, processBucket]
      exact ih (fun p hp => h p (List.mem_cons_of_mem _ hp))

theorem declareAll_append (r1 r2 : Registry) (h : allNonEmpty r1) :
    declareAll (r1 ++ r2) =
      ((declareAll r1).1 ++ (declareAll r2).1, (declareAll r2).2) := by
  induction r1 with
  | nil => simp [declareAll]
  | cons q rest ih =>
    rcases q with ⟨b, subs⟩
    have hs : subs ≠ [] := h (b, subs) (List.mem_cons_self _ _)
    rcases subs with _ | ⟨f, r⟩
    · exact absurd rfl hs
    · simp only [List.cons_append, declareAll, processBucket, List.append_eq]
      rw [ih (fun p hp => h p (List.mem_cons_of_mem _ hp))]

theorem registerInfo_lookup_self (reg : Registry) (b : Bucket) (i : SubscriptionInfo) :
    (registerInfo reg b i).lookup b = some (((reg.lookup b).getD []) ++ [i]) := by
  induction reg with
  | nil => simp [registerInfo, List.lookup]
  | cons q rest ih =>
    rcases q with ⟨b0, l⟩
    by_cases hb : b = b0
    · subst hb; simp [registerInfo, List.lookup]
    · have hbeq : (b == b0) = false := by simp [hb]
      simp [registerInfo, List.lookup, hb, hbeq, ih]

theorem registerInfo_of_lookup_none (reg : Registry) (b : Bucket) (i : SubscriptionInfo)
    (h : reg.lookup b = none) : registerInfo reg b i = reg ++ [(b, [i])] := by
  induction reg with
  | nil => rfl
  | cons q rest ih =>
    rcases q with ⟨b0, l⟩
    by_cases hb : b = b0
    · subst hb; simp [List.lookup] at h
    · simp only [List.lookup] at h
      rw [show ((b == b0 : Bool)) = false by simp [hb]] at h
      simp only [registerInfo, if_neg hb, List.cons_append]
      rw [ih h]

theorem not_mem_keys_of_lookup_none (reg : Registry) (b : Bucket)
    (h : reg.lookup b = none) : b ∉ reg.map Prod.fst := by
  induction reg with
  | nil => simp
  | cons q rest ih =>
    rcases q with ⟨b0, l⟩
    by_cases hb : b = b0
    · subst hb; simp [List.lookup] at h
    · simp only [List.lookup] at h
      rw [show ((b == b0 : Bool)) = false by simp [hb]] at h
      simp [hb, ih h]

theorem declareAll_bucket_mem (reg : Registry) :
    ∀ n ∈ (declareAll reg).1, n.bucket ∈ reg.map Prod.fst := by
  induction reg with
  | nil => simp [declareAll]
  | cons q rest ih =>
    rcases q with ⟨b, subs⟩
    rcases subs with _ | ⟨f, r⟩
    · simp [declareAll, processBucket]
    · intro n hn
      simp only [declareAll, processBucket, List.mem_cons] at hn
      rcases hn with rfl | hn
      · simp
      · simp [ih n hn]

theorem declareAll_countP_le (reg : Registry) (b : Bucket) :
    ((declareAll reg).1.countP (fun n => n.bucket == b)) ≤
      reg.countP (fun p => p.1 == b) := by
  induction reg with
  | nil => simp [declareAll]
  | cons q rest ih =>
    rcases q with ⟨b0, subs⟩
    rcases subs with _ | ⟨f, r⟩
    · simp [declareAll, processBucket]
    · simp only [declareAll, processBucket, List.countP_cons]
      omega

theorem registerInfo_keys (reg : Registry) (b : Bucket) (i : SubscriptionInfo) :
    (registerInfo reg b i).map Prod.fst =
      if b ∈ reg.map Prod.fst then reg.map Prod.fst
      else reg.map Prod.fst ++ [b] := by
  induction reg with
  | nil => simp [registerInfo]
  | cons q rest ih =>
    rcases q with ⟨b0, l⟩
    by_cases hb : b = b0
    · subst hb; simp [registerInfo]
    · have hcond : (b ∈ ((b0, l) :: rest).map Prod.fst) ↔ b ∈ rest.map Prod.fst := by
        simp [hb]
      by_cases hmem : b ∈ rest.map Prod.fst
      · rw [if_pos (hcond.mpr hmem)]
        simp [registerInfo, hb, ih, hmem]
      · rw [if_neg (fun hc => hmem (hcond.mp hc))]
        simp [registerInfo, hb, ih, hmem]

theorem registerInfo_keys_nodup (reg : Registry) (b : Bucket) (i : SubscriptionInfo)
    (h : (reg.map Prod.fst).Nodup) : ((registerInfo reg b i).map Prod.fst).Nodup := by
  rw [registerInfo_keys]
  by_cases hmem : b ∈ reg.map Prod.fst
  · simpa [hmem] using h
  · simp [hmem, List.nodup_append, h]

theorem step_register (s : ProcState) (b : Bucket) (i : SubscriptionInfo)
    (h : s.crashed = false) :
    step s (Action.register b i) = { s with registry := registerInfo s.registry b i } := by
  simp [step, h]

theorem foldl_register_single (b : Bucket) (infos : List SubscriptionInfo) :
    ∀ s : ProcState, s.crashed = false →
      List.foldl step s (infos.map (Action.register b)) =
        { s with registry := List.foldl (fun r i => registerInfo r b i) s.registry infos } := by
  induction infos with
  | nil => intro s _; rfl
  | cons i rest ih =>
    intro s h
    simp only [List.map_cons, List.foldl_cons]
    rw [step_register s b i h, ih _ (by simp [h])]

theorem registerInfo_foldl_same (b : Bucket) (l : List SubscriptionInfo) :
    ∀ acc : List SubscriptionInfo,
      List.foldl (fun r i => registerInfo r b i) [(b, acc)] l = [(b, acc ++ l)] := by
  induction l with
  | nil => intro acc; simp
  | cons i rest ih =>
    intro acc
    simp only [List.foldl_cons, registerInfo, eq_self_iff_true, if_true]
    rw [ih (acc ++ [i])]
    simp

theorem foldl_register_pairs (l : List (Bucket × SubscriptionInfo)) :
    ∀ s : ProcState, s.crashed = false →
      List.foldl step s (l.map fun p => Action.register p.1 p.2) =
        { s with registry := List.foldl (fun r p => registerInfo r p.1 p.2) s.registry l } := by
  induction l with
  | nil => intro s _; rfl
  | cons p rest ih =>
    intro s h
    simp only [List.map_cons, List.foldl_cons]
    rw [step_register s p.1 p.2 h, ih _ (by simp [h])]

theorem step_beforeExit_of_empty (s : ProcState) (h : s.registry = []) :
    step s Action.beforeExit = s := by
  rcases s with ⟨reg, d, c⟩
  simp only at h
  subst h
  cases c <;> simp [step, declareAll]

theorem foldl_beforeExit_of_empty (s : ProcState) (h : s.registry = []) (m : Nat) :
    List.foldl step s (List.replicate m Action.beforeExit) = s := by
  induction m with
  | zero => rfl
  | succ k ih =>
    simp only [List.replicate_succ, List.foldl_cons, step_beforeExit_of_empty s h]
    exact ih

theorem step_beforeExit_idem (s : ProcState) :
    step (step s Action.beforeExit) Action.beforeExit = step s Action.beforeExit := by
  rcases s with ⟨reg, d, c⟩
  cases c
  · have h1 : step ⟨reg, d, false⟩ Action.beforeExit =
        { registry := [], declared := d ++ (declareAll reg).1,
          crashed := (declareAll reg).2 } := by
      simp [step]
    rw [h1]
    exact step_beforeExit_of_empty _ rfl
  · simp [step]

theorem microRun_declare (k : Nat) :
    ∀ (P : Registry) (r : Registry) (d : List BucketNotification),
      allNonEmpty (P.take k) →
      microRun (List.replicate k MicroStep.declareOne) ⟨r, P, d, false⟩ =
        ⟨r, P.drop k, d ++ (declareAll (P.take k)).1, false⟩ := by
  induction k with
  | zero => intro P r d _; simp [microRun, declareAll]
  | succ k ih =>
    intro P r d hP
    rcases P with _ | ⟨⟨b, subs⟩, rest⟩
    · simp only [microRun, List.replicate_succ, List.foldl_cons]
      have h0 : microStep ⟨r, [], d, false⟩ MicroStep.declareOne = ⟨r, [], d, false⟩ := rfl
      rw [h0]
      have h2 := ih [] r d (by intro p hp; simp at hp)
      simpa [microRun, declareAll] using h2
    · have hs : subs ≠ [] := by
        have hm := hP (b, subs) (by simp [List.take_succ_cons])
        exact hm
      rcases subs with _ | ⟨f, rsub⟩
      · exact absurd rfl hs
      · simp only [microRun, List.replicate_succ, List.foldl_cons]
        have h0 : microStep ⟨r, (b, f :: rsub) :: rest, d, false⟩ MicroStep.declareOne =
            ⟨r, rest, d ++ [{ name := f.name, bucket := b,
                              lambdaFunctions := (f :: rsub).map toEntry, parent := b,
                              dependsOn := (f :: rsub).map (fun s => s.permission) }],
             false⟩ := rfl
        rw [h0]
        have hrest : allNonEmpty (rest.take k) := by
          intro p hp
          exact hP p (by simp [List.take_succ_cons, hp])
        have h2 := ih rest r
          (d ++ [{ name := f.name, bucket := b,
                   lambdaFunctions := (f :: rsub).map toEntry, parent := b,
                   dependsOn := (f :: rsub).map (fun s => s.permission) }]) hrest
        simp only [microRun] at h2
        rw [h2]
        simp [List.take_succ_cons, declareAll, processBucket]

theorem run_single_bucket (b : Bucket) (infos : List SubscriptionInfo) (h : infos ≠ []) :
    run (infos.map (Action.register b) ++ [Action.beforeExit]) =
      { registry := []
        declared := [{ name := (infos.head h).name
                       bucket := b
                       lambdaFunctions := infos.map toEntry
                       parent := b
                       dependsOn := infos.map (fun s => s.permission) }]
        crashed := false } := by
  rcases infos with _ | ⟨f, rest⟩
  · exact absurd rfl h
  · have hreg : List.foldl (fun r i => registerInfo r b i) ([] : Registry) (f :: rest)
        = [(b, f :: rest)] := by
      simp only [List.foldl_cons]
      rw [show registerInfo ([] : Registry) b f = [(b, [f])] from rfl,
        registerInfo_foldl_same b rest [f]]
      simp
    rw [run, List.foldl_append, foldl_register_single b (f :: rest) initState rfl]
    simp only [initState, hreg, List.foldl_cons, List.foldl_nil]
    simp [step, declareAll, processBucket]

theorem lastRegistered_registerInfo (e1 : Env) (reg : Registry) (b : Bucket)
    (i : SubscriptionInfo) (h : e1.registry = registerInfo reg b i) :
    lastRegistered e1 b = some i := by
  unfold lastRegistered
  rw [h, registerInfo_lookup_self]
  simp only [Option.getD_some]
  exact List.getLast?_concat _

theorem onEvent_registersRequest (name : String) (b : Bucket) (args : BucketSubscriptionArgs)
    (e : Env) :
    registersRequest (onEvent name b args e) b args.events args.filterPrefix
      args.filterSuffix :=
  ⟨_, rfl, _, lastRegistered_registerInfo _ e.registry b _ rfl, rfl, rfl, rfl⟩

theorem S3_onEvent_registersRequest (name : String) (b : Bucket)
    (args : BucketSubscriptionArgs) (e : Env) :
    registersRequest (S3.onEvent name b args e) b args.events args.filterPrefix
      args.filterSuffix :=
  ⟨_, rfl, _, lastRegistered_registerInfo _ e.registry b _ rfl, rfl, rfl, rfl⟩

theorem S3_onObjectCreated_registersRequest (name : String) (b : Bucket)
    (fp fs : Option String) (q : Option String) (e : Env) :
    registersRequest
      (S3.onObjectCreated name b
        (some { filterPrefix := fp, filterSuffix := fs, event := q }) e)
      b ["s3:ObjectCreated:" ++ S3.jsOrStar q] fp fs :=
  S3_onEvent_registersRequest (name ++ "-object-created") b
    { events := ["s3:ObjectCreated:" ++ S3.jsOrStar q], filterPrefix := fp,
      filterSuffix := fs } e

theorem S3_onObjectRemoved_registersRequest (name : String) (b : Bucket)
    (fp fs : Option String) (q : Option String) (e : Env) :
    registersRequest
      (S3.onObjectRemoved name b
        (some { filterPrefix := fp, filterSuffix := fs, event := q }) e)
      b ["s3:ObjectRemoved:" ++ S3.jsOrStar q] fp fs :=
  S3_onEvent_registersRequest (name ++ "-object-removed") b
    { events := ["s3:ObjectRemoved:" ++ S3.jsOrStar q], filterPrefix := fp,
      filterSuffix := fs } e

theorem declareAll_filter_fresh (reg : Registry) (b : Bucket) (i : SubscriptionInfo)
    (hb : reg.lookup b = none) (hne : allNonEmpty reg) :
    (((declareAll (registerInfo reg b i)).1.filter (fun n => n.bucket == b)).map
      (fun n => n.name)) = [i.name] := by
  rw [registerInfo_of_lookup_none reg b i hb, declareAll_append reg [(b, [i])] hne]
  have hnil : (declareAll reg).1.filter (fun n => n.bucket == b) = [] := by
    rw [List.filter_eq_nil_iff]
    intro n hn
    have hmem := declareAll_bucket_mem reg n hn
    have hnot := not_mem_keys_of_lookup_none reg b hb
    simp only [beq_iff_eq]
    intro hc
    exact hnot (hc ▸ hmem)
  simp only [List.filter_append, hnil, List.nil_append]
  rw [show (declareAll [(b, [i])]).1 =
    [{ name := i.name, bucket := b, lambdaFunctions := [toEntry i],
       parent := b, dependsOn := [i.permission] }] from rfl]
  simp

theorem onEvent_registersUnder (name : String) (b : Bucket) (args : BucketSubscriptionArgs)
    (e : Env) : registersUnder (onEvent name b args e) b name :=
  ⟨_, rfl, _, lastRegistered_registerInfo _ e.registry b _ rfl, rfl⟩

theorem S3_onEvent_registersUnder (name : String) (b : Bucket)
    (args : BucketSubscriptionArgs) (e : Env) :
    registersUnder (S3.onEvent name b args e) b name :=
  ⟨_, rfl, _, lastRegistered_registerInfo _ e.registry b _ rfl, rfl⟩

theorem onEvent_firstAggregate (name : String) (b : Bucket) (args : BucketSubscriptionArgs)
    (e : Env) (hb : e.registry.lookup b = none) (hne : allNonEmpty e.registry) :
    firstAggregateNamed (onEvent name b args e) b name := by
  refine ⟨_, rfl, ?_⟩
  exact declareAll_filter_fresh e.registry b
    { name := name, events := args.events, filterPrefix := args.filterPrefix,
      filterSuffix := args.filterSuffix,
      lambdaFunctionArn := "arn:" ++ (name ++ "-bucket-subscription"),
      permission := name } hb hne

theorem S3_onEvent_firstAggregate (name : String) (b : Bucket)
    (args : BucketSubscriptionArgs) (e : Env) (hb : e.registry.lookup b = none)
    (hne : allNonEmpty e.registry) :
    firstAggregateNamed (S3.onEvent name b args e) b name := by
  refine ⟨_, rfl, ?_⟩
  exact declareAll_filter_fresh e.registry b
    { name := name, events := args.events, filterPrefix := args.filterPrefix,
      filterSuffix := args.filterSuffix,
      lambdaFunctionArn := "arn:" ++ (name ++ "-bucket-event"),
      permission := name } hb hne

/-- C1: for every sequence of N ≥ 1 registrations against the same bucket
followed by one finalization pass, exactly one aggregate `BucketNotification`
is declared for that bucket; its `lambdaFunctions` list holds exactly the N
subscriptions' entries in registration order (identical requests are kept, no
entry of any other bucket appears), it is parented to the bucket, and it
depends on all N permission handles. -/
theorem c1_single_aggregate (b : Bucket) (infos : List SubscriptionInfo)
    (h : infos ≠ []) :
    run (infos.map (Action.register b) ++ [Action.beforeExit]) =
      { registry := []
        declared := [{ name := (infos.head h).name
                       bucket := b
                       lambdaFunctions := infos.map toEntry
                       parent := b
                       dependsOn := infos.map (fun s => s.permission) }]
        crashed := false } :=
  run_single_bucket b infos h

/-- Witness for C1 at two identical registrations against bucket 0: the single
aggregate keeps both (non-deduplicated) entries in order. -/
theorem c1_single_aggregate_witness :
    ([subA, subA] : List SubscriptionInfo) ≠ [] ∧
    run (([subA, subA] : List SubscriptionInfo).map (Action.register 0) ++
        [Action.beforeExit]) =
      { registry := []
        declared := [{ name := "a", bucket := 0,
                       lambdaFunctions := [toEntry subA, toEntry subA],
                       parent := 0, dependsOn := ["a", "a"] }]
        crashed := false } :=
  ⟨List.cons_ne_nil _ _, by
    have h := c1_single_aggregate 0 [subA, subA] (List.cons_ne_nil _ _)
    simpa [subA] using h⟩

/-- C5: the aggregate resource declared at finalization is named after the
first request registered for that bucket, whatever the later requests are
named. -/
theorem c5_aggregate_named_after_first (b : Bucket) (infos : List SubscriptionInfo)
    (h : infos ≠ []) :
    (run (infos.map (Action.register b) ++ [Action.beforeExit])).declared.map
      (fun n => n.name) = [(infos.head h).name] := by
  rw [run_single_bucket b infos h]
  simp

/-- Witness for C5: registering `subA` (named "a") then `subB` (named "b")
yields one aggregate named "a". -/
theorem c5_aggregate_named_after_first_witness :
    ([subA, subB] : List SubscriptionInfo) ≠ [] ∧
    (run (([subA, subB] : List SubscriptionInfo).map (Action.register 0) ++
        [Action.beforeExit])).declared.map (fun n => n.name) = ["a"] :=
  ⟨List.cons_ne_nil _ _, by
    have h := c5_aggregate_named_after_first 0 [subA, subB] (List.cons_ne_nil _ _)
    simpa [subA] using h⟩

/-- C6: finalizing on an empty registry declares nothing and raises no error
(it returns the state unchanged), and a second finalization immediately after
a first one with no intervening registrations changes nothing. -/
theorem c6_idempotent_drain :
    (∀ s : ProcState, s.registry = [] → step s Action.beforeExit = s) ∧
    ∀ acts : List Action,
      run (acts ++ [Action.beforeExit, Action.beforeExit]) =
        run (acts ++ [Action.beforeExit]) := by
  constructor
  · exact step_beforeExit_of_empty
  · intro acts
    rw [run, run, List.foldl_append, List.foldl_append]
    simp only [List.foldl_cons, List.foldl_nil]
    exact step_beforeExit_idem _

/-- Witness for C6 at the initial (empty-registry) state and the empty action
list. -/
theorem c6_idempotent_drain_witness :
    step initState Action.beforeExit = initState ∧
    run ([] ++ [Action.beforeExit, Action.beforeExit]) =
      run ([] ++ [Action.beforeExit]) :=
  ⟨c6_idempotent_drain.1 initState rfl, c6_idempotent_drain.2 []⟩

/-- Counterexample to C7: on a snapshot mapping bucket 0 to an empty
subscription list, the finalization handler does not perform a no-op — it
crashes (`subscriptions[0]` is `undefined`, so reading `.name` throws),
declaring nothing. -/
theorem c7_counterexample :
    step { registry := [(0, [])], declared := [], crashed := false }
        Action.beforeExit =
      { registry := [], declared := [], crashed := true } := rfl

/-- C7 (amended): the handler has no defensive no-op for empty lists — it
crashes on them (see the counterexample) — but empty lists are unreachable:
in every run, every list stored in the registry is non-empty and no
finalization pass ever crashes. -/
theorem c7_empty_lists_unreachable (acts : List Action) :
    (run acts).crashed = false ∧ allNonEmpty (run acts).registry := by
  have inv : ∀ (l : List Action) (s : ProcState), s.crashed = false →
      allNonEmpty s.registry →
      (List.foldl step s l).crashed = false ∧
        allNonEmpty (List.foldl step s l).registry := by
    intro l
    induction l with
    | nil => intro s h1 h2; exact ⟨h1, h2⟩
    | cons a rest ih =>
      intro s h1 h2
      rcases a with ⟨b, i⟩ | _
      · simp only [List.foldl_cons]
        rw [step_register s b i h1]
        exact ih _ h1 (registerInfo_allNonEmpty s.registry b i h2)
      · simp only [List.foldl_cons]
        have hstep : step s Action.beforeExit =
            { registry := [], declared := s.declared ++ (declareAll s.registry).1,
              crashed := (declareAll s.registry).2 } := by
          simp [step, h1]
        rw [hstep]
        refine ih _ ?_ ?_
        · exact declareAll_noCrash s.registry h2
        · exact fun p hp => (List.not_mem_nil p hp).elim
  exact inv acts initState rfl (fun p hp => (List.not_mem_nil p hp).elim)

/-- Counterexample to C2: in the run "register to bucket 0, finalize, register
to bucket 0 again, finalize", two aggregate notification resources are
declared for bucket 0 over the whole run, not at most one. -/
theorem c2_counterexample :
    ((run [Action.register 0 subA, Action.beforeExit,
           Action.register 0 subB, Action.beforeExit]).declared.countP
      (fun n => n.bucket == 0)) = 2 := by rfl

/-- C2 (amended): at most one aggregate notification resource is declared per
bucket identity over the whole run provided every register call precedes the
first finalization firing (the code declares a new aggregate for a bucket on
each pass whose snapshot contains it, so a register after a finalization
yields a second aggregate). -/
theorem c2_at_most_one_per_bucket (regs : List (Bucket × SubscriptionInfo)) (m : Nat)
    (b : Bucket) :
    ((run ((regs.map fun p => Action.register p.1 p.2) ++
        List.replicate m Action.beforeExit)).declared.countP
      (fun n => n.bucket == b)) ≤ 1 := by
  rw [run, List.foldl_append, foldl_register_pairs regs initState rfl]
  have hnodup : ((List.foldl (fun r p => registerInfo r p.1 p.2)
      initState.registry regs).map Prod.fst).Nodup := by
    have hgen : ∀ (l : List (Bucket × SubscriptionInfo)) (r0 : Registry),
        (r0.map Prod.fst).Nodup →
        ((List.foldl (fun r p => registerInfo r p.1 p.2) r0 l).map Prod.fst).Nodup := by
      intro l
      induction l with
      | nil => intro r0 h; exact h
      | cons p rest ih =>
        intro r0 h
        exact ih _ (registerInfo_keys_nodup r0 p.1 p.2 h)
    exact hgen regs initState.registry (by simp [initState])
  cases m with
  | zero => simp [initState]
  | succ k =>
    simp only [List.replicate_succ, List.foldl_cons]
    have hstep : step { initState with
          registry := List.foldl (fun r p => registerInfo r p.1 p.2)
            initState.registry regs } Action.beforeExit =
        { registry := []
          declared := (declareAll (List.foldl (fun r p => registerInfo r p.1 p.2)
            initState.registry regs)).1
          crashed := (declareAll (List.foldl (fun r p => registerInfo r p.1 p.2)
            initState.registry regs)).2 } := by
      simp [step, initState]
    rw [hstep, foldl_beforeExit_of_empty _ rfl k]
    calc ((declareAll (List.foldl (fun r p => registerInfo r p.1 p.2)
            initState.registry regs)).1.countP fun n => n.bucket == b)
        ≤ (List.foldl (fun r p => registerInfo r p.1 p.2)
            initState.registry regs).countP (fun p => p.1 == b) :=
          declareAll_countP_le _ b
      _ = ((List.foldl (fun r p => registerInfo r p.1 p.2)
            initState.registry regs).map Prod.fst).countP (fun x => x == b) := by
          rw [List.countP_map]
          rfl
      _ = ((List.foldl (fun r p => registerInfo r p.1 p.2)
            initState.registry regs).map Prod.fst).count b := rfl
      _ ≤ 1 := List.nodup_iff_count_le_one.mp hnodup b

/-- C3: the finalization pass swaps in a fresh empty registry before declaring
anything from the snapshot; a register call interleaved anywhere inside the
pass (after `k` of the snapshot's buckets have been processed) neither merges
into, is lost from, nor is double-counted in the in-progress pass — that pass
declares exactly the snapshot's resources — and the next pass declares the
interleaved subscription exactly once, in a fresh aggregate of its own. -/
theorem c3_reentrant_register (reg : Registry) (k : Nat) (b : Bucket)
    (i : SubscriptionInfo) (hreg : allNonEmpty reg) :
    (microRun [MicroStep.fireSwap] ⟨reg, [], [], false⟩).registry = [] ∧
    (microRun [MicroStep.fireSwap] ⟨reg, [], [], false⟩).declared = [] ∧
    microRun ([MicroStep.fireSwap] ++ List.replicate k MicroStep.declareOne ++
        [MicroStep.register b i] ++
        List.replicate (reg.length - k) MicroStep.declareOne ++
        [MicroStep.fireSwap, MicroStep.declareOne]) ⟨reg, [], [], false⟩ =
      { registry := [], pending := [],
        declared := (declareAll reg).1 ++
          [{ name := i.name, bucket := b, lambdaFunctions := [toEntry i],
             parent := b, dependsOn := [i.permission] }],
        crashed := false } := by
  refine ⟨rfl, rfl, ?_⟩
  have htake : allNonEmpty (reg.take k) := fun p hp => hreg p (List.mem_of_mem_take hp)
  have hdropfull : allNonEmpty ((reg.drop k).take (reg.length - k)) := fun p hp =>
    hreg p (List.mem_of_mem_drop (List.mem_of_mem_take hp))
  have h1 : microStep ⟨reg, [], [], false⟩ MicroStep.fireSwap = ⟨[], reg, [], false⟩ := rfl
  have h2 := microRun_declare k reg [] [] htake
  have h3 : microStep ⟨[], reg.drop k, (declareAll (reg.take k)).1, false⟩
      (MicroStep.register b i) =
      ⟨[(b, [i])], reg.drop k, (declareAll (reg.take k)).1, false⟩ := rfl
  have h4 := microRun_declare (reg.length - k) (reg.drop k) [(b, [i])]
      ((declareAll (reg.take k)).1) hdropfull
  have hdt : (reg.drop k).take (reg.length - k) = reg.drop k := by
    rw [← List.length_drop]
    exact List.take_length _
  have hdd : (reg.drop k).drop (reg.length - k) = [] := by
    rw [← List.length_drop]
    exact List.drop_length _
  rw [hdt, hdd] at h4
  have h5 : microStep ⟨[(b, [i])], [],
      (declareAll (reg.take k)).1 ++ (declareAll (reg.drop k)).1, false⟩
      MicroStep.fireSwap =
      ⟨[], [(b, [i])],
        (declareAll (reg.take k)).1 ++ (declareAll (reg.drop k)).1, false⟩ := rfl
  have h6 : microStep ⟨[], [(b, [i])],
      (declareAll (reg.take k)).1 ++ (declareAll (reg.drop k)).1, false⟩
      MicroStep.declareOne =
      ⟨[], [], ((declareAll (reg.take k)).1 ++ (declareAll (reg.drop k)).1) ++
        [{ name := i.name, bucket := b, lambdaFunctions := [toEntry i],
           parent := b, dependsOn := [i.permission] }], false⟩ := rfl
  have hD : (declareAll (reg.take k)).1 ++ (declareAll (reg.drop k)).1 =
      (declareAll reg).1 := by
    conv_rhs => rw [← List.take_append_drop k reg]
    rw [declareAll_append _ _ htake]
  simp only [microRun, List.nil_append] at h2 h4 ⊢
  simp only [List.foldl_append, List.foldl_cons, List.foldl_nil]
  rw [h1, h2, h3, h4, h5, h6, hD]

/-- Witness for C3: snapshot `[(1, [subA])]`, the interleaved register hits
the same bucket 1 after its aggregate was already declared (`k = 1`), and the
next pass declares a fresh single-entry aggregate for it. -/
theorem c3_reentrant_register_witness :
    allNonEmpty [(1, [subA])] ∧
    ((microRun [MicroStep.fireSwap] ⟨[(1, [subA])], [], [], false⟩).registry = [] ∧
     (microRun [MicroStep.fireSwap] ⟨[(1, [subA])], [], [], false⟩).declared = [] ∧
     microRun ([MicroStep.fireSwap] ++ List.replicate 1 MicroStep.declareOne ++
         [MicroStep.register 1 subB] ++
         List.replicate (([(1, [subA])] : Registry).length - 1) MicroStep.declareOne ++
         [MicroStep.fireSwap, MicroStep.declareOne]) ⟨[(1, [subA])], [], [], false⟩ =
       { registry := [], pending := [],
         declared := (declareAll [(1, [subA])]).1 ++
           [{ name := subB.name, bucket := 1, lambdaFunctions := [toEntry subB],
              parent := 1, dependsOn := [subB.permission] }],
         crashed := false }) :=
  ⟨fun p hp => by
      rw [List.mem_singleton] at hp
      subst hp
      exact List.cons_ne_nil _ _,
   c3_reentrant_register [(1, [subA])] 1 1 subB (fun p hp => by
      rw [List.mem_singleton] at hp
      subst hp
      exact List.cons_ne_nil _ _)⟩

/-- Counterexample to C4: calling the generic entry point with an empty
`events` list does not fail — it returns successfully, after declaring the
lambda function and the permission and registering a subscription whose
`events` list is empty. -/
theorem c4_counterexample :
    onEvent "x" 0 { events := [], filterPrefix := none, filterSuffix := none }
        emptyEnv =
      Except.ok
        ( { registry := [(0, [{ name := "x", events := [], filterPrefix := none,
                                filterSuffix := none,
                                lambdaFunctionArn := "arn:x-bucket-subscription",
                                permission := "x" }])]
            functions := ["x-bucket-subscription"]
            permissions := ["x"] }
        , { permission := "x", bucket := 0 } ) := rfl

/-- C4 (amended): the generic entry point performs no validation of
`args.events`: every call — with an empty or non-empty `events` list —
succeeds, declares the lambda function and the permission, and registers the
subscription with the `events` list passed through verbatim; no
`InvalidArgument` failure exists in the code. -/
theorem c4_no_events_validation (name : String) (b : Bucket)
    (args : BucketSubscriptionArgs) (e : Env) :
    onEvent name b args e =
      Except.ok
        ( { registry := registerInfo e.registry b
              { name := name, events := args.events,
                filterPrefix := args.filterPrefix, filterSuffix := args.filterSuffix,
                lambdaFunctionArn := "arn:" ++ (name ++ "-bucket-subscription"),
                permission := name }
            functions := e.functions ++ [name ++ "-bucket-subscription"]
            permissions := e.permissions ++ [name] }
        , { permission := name, bucket := b } ) := rfl

/-- Counterexample to C9: passing the empty string as the qualifier of
`onObjectCreated` is not rejected: the call behaves exactly like a call with
the qualifier omitted, producing `events = ["s3:ObjectCreated:*"]` and
succeeding. -/
theorem c9_counterexample :
    (S3.onObjectCreated "x" 0
        (some { filterPrefix := none, filterSuffix := none, event := some "" })
        emptyEnv =
      S3.onObjectCreated "x" 0
        (some { filterPrefix := none, filterSuffix := none, event := none })
        emptyEnv) ∧
    S3.onObjectCreated "x" 0
        (some { filterPrefix := none, filterSuffix := none, event := some "" })
        emptyEnv =
      Except.ok
        ( { registry := [(0, [{ name := "x-object-created",
                                events := ["s3:ObjectCreated:*"],
                                filterPrefix := none, filterSuffix := none,
                                lambdaFunctionArn := "arn:x-object-created-bucket-event",
                                permission := "x-object-created" }])]
            functions := ["x-object-created-bucket-event"]
            permissions := ["x-object-created"] }
        , { permission := "x-object-created", bucket := 0 } ) :=
  ⟨rfl, rfl⟩

/-- C9 (amended): an empty qualifier string is not rejected; JavaScript's
`args.event || "*"` treats the empty string as falsy, so the call is
identical to one with the qualifier omitted (defaulting to `"*"`) and
succeeds with no error. -/
theorem c9_empty_qualifier_defaults (name : String) (b : Bucket)
    (fp fs : Option String) (e : Env) :
    (S3.onObjectCreated name b
        (some { filterPrefix := fp, filterSuffix := fs, event := some "" }) e =
      S3.onObjectCreated name b
        (some { filterPrefix := fp, filterSuffix := fs, event := none }) e) ∧
    (S3.onObjectRemoved name b
        (some { filterPrefix := fp, filterSuffix := fs, event := some "" }) e =
      S3.onObjectRemoved name b
        (some { filterPrefix := fp, filterSuffix := fs, event := none }) e) ∧
    (∃ r, S3.onObjectCreated name b
        (some { filterPrefix := fp, filterSuffix := fs, event := some "" }) e =
      Except.ok r) ∧
    (∃ r, S3.onObjectRemoved name b
        (some { filterPrefix := fp, filterSuffix := fs, event := some "" }) e =
      Except.ok r) :=
  ⟨rfl, rfl, ⟨_, rfl⟩, ⟨_, rfl⟩⟩

/-- C8: each convenience helper builds the canonical events list with its
fixed category and a qualifier defaulting to `"*"`: `onPut` (with or without
args) registers `["s3:ObjectCreated:*"]`, `onDelete` registers
`["s3:ObjectRemoved:*"]`, and `onObjectCreated` / `onObjectRemoved` with an
explicit (non-empty, per their TypeScript literal-union type) qualifier `X`
register `["s3:ObjectCreated:X"]` / `["s3:ObjectRemoved:X"]`; the filters are
passed through unchanged to the generic entry point. -/
theorem c8_helper_derivation (name : String) (b : Bucket) (fp fs : Option String)
    (X : String) (e : Env) (hX : X ≠ "") :
    registersRequest (onPut name b none e) b ["s3:ObjectCreated:*"] none none ∧
    registersRequest (onPut name b (some { filterPrefix := fp, filterSuffix := fs }) e)
      b ["s3:ObjectCreated:*"] fp fs ∧
    registersRequest (onDelete name b (some { filterPrefix := fp, filterSuffix := fs }) e)
      b ["s3:ObjectRemoved:*"] fp fs ∧
    registersRequest (S3.onObjectCreated name b
        (some { filterPrefix := fp, filterSuffix := fs, event := some X }) e)
      b ["s3:ObjectCreated:" ++ X] fp fs ∧
    registersRequest (S3.onObjectRemoved name b
        (some { filterPrefix := fp, filterSuffix := fs, event := some X }) e)
      b ["s3:ObjectRemoved:" ++ X] fp fs := by
  have hq : S3.jsOrStar (some X) = X := by simp [S3.jsOrStar, hX]
  refine ⟨?_, ?_, ?_, ?_, ?_⟩
  · exact onEvent_registersRequest (name ++ "-put") b
      { events := ["s3:ObjectCreated:*"], filterPrefix := none, filterSuffix := none } e
  · exact onEvent_registersRequest (name ++ "-put") b
      { events := ["s3:ObjectCreated:*"], filterPrefix := fp, filterSuffix := fs } e
  · exact onEvent_registersRequest (name ++ "-delete") b
      { events := ["s3:ObjectRemoved:*"], filterPrefix := fp, filterSuffix := fs } e
  · have h := S3_onObjectCreated_registersRequest name b fp fs (some X) e
    rw [hq] at h
    exact h
  · have h := S3_onObjectRemoved_registersRequest name b fp fs (some X) e
    rw [hq] at h
    exact h

/-- Witness for C8 at qualifier "Put", filters `some "p"` / `none`, on the
empty environment. -/
theorem c8_helper_derivation_witness :
    ("Put" : String) ≠ "" ∧
    (registersRequest (onPut "n" 0 none emptyEnv) 0 ["s3:ObjectCreated:*"] none none ∧
     registersRequest
       (onPut "n" 0 (some { filterPrefix := some "p", filterSuffix := none }) emptyEnv)
       0 ["s3:ObjectCreated:*"] (some "p") none ∧
     registersRequest
       (onDelete "n" 0 (some { filterPrefix := some "p", filterSuffix := none }) emptyEnv)
       0 ["s3:ObjectRemoved:*"] (some "p") none ∧
     registersRequest
       (S3.onObjectCreated "n" 0
         (some { filterPrefix := some "p", filterSuffix := none, event := some "Put" })
         emptyEnv)
       0 ["s3:ObjectCreated:Put"] (some "p") none ∧
     registersRequest
       (S3.onObjectRemoved "n" 0
         (some { filterPrefix := some "p", filterSuffix := none, event := some "Put" })
         emptyEnv)
       0 ["s3:ObjectRemoved:Put"] (some "p") none) :=
  ⟨by decide, c8_helper_derivation "n" 0 (some "p") none "Put" emptyEnv (by decide)⟩

/-- C10: every convenience helper registers its request under a suffixed
logical name (`-put`, `-delete`, `-object-created`, `-object-removed`), not
the caller-supplied name, and when that helper call is the first registration
for a bucket, finalizing the resulting registry names the bucket's aggregate
resource with the suffixed name. -/
theorem c10_suffixed_names (name : String) (b : Bucket)
    (sargs : Option SimpleBucketSubscriptionArgs)
    (cargs : Option S3.ObjectCreatedSubscriptionArgs)
    (rargs : Option S3.ObjectRemovedSubscriptionArgs) (e : Env)
    (hb : e.registry.lookup b = none) (hne : allNonEmpty e.registry) :
    (registersUnder (onPut name b sargs e) b (name ++ "-put") ∧
      firstAggregateNamed (onPut name b sargs e) b (name ++ "-put")) ∧
    (registersUnder (onDelete name b sargs e) b (name ++ "-delete") ∧
      firstAggregateNamed (onDelete name b sargs e) b (name ++ "-delete")) ∧
    (registersUnder (S3.onObjectCreated name b cargs e) b (name ++ "-object-created") ∧
      firstAggregateNamed (S3.onObjectCreated name b cargs e) b
        (name ++ "-object-created")) ∧
    (registersUnder (S3.onObjectRemoved name b rargs e) b (name ++ "-object-removed") ∧
      firstAggregateNamed (S3.onObjectRemoved name b rargs e) b
        (name ++ "-object-removed")) := by
  refine ⟨⟨?_, ?_⟩, ⟨?_, ?_⟩, ⟨?_, ?_⟩, ⟨?_, ?_⟩⟩
  · exact onEvent_registersUnder (name ++ "-put") b _ e
  · exact onEvent_firstAggregate (name ++ "-put") b _ e hb hne
  · exact onEvent_registersUnder (name ++ "-delete") b _ e
  · exact onEvent_firstAggregate (name ++ "-delete") b _ e hb hne
  · exact S3_onEvent_registersUnder (name ++ "-object-created") b _ e
  · exact S3_onEvent_firstAggregate (name ++ "-object-created") b _ e hb hne
  · exact S3_onEvent_registersUnder (name ++ "-object-removed") b _ e
  · exact S3_onEvent_firstAggregate (name ++ "-object-removed") b _ e hb hne

/-- Witness for C10 with caller-supplied name "n" on the empty environment:
all four helpers register under the suffixed names and the fresh bucket's
aggregate takes the suffixed name. -/
theorem c10_suffixed_names_witness :
    emptyEnv.registry.lookup 0 = none ∧
    allNonEmpty emptyEnv.registry ∧
    ((registersUnder (onPut "n" 0 none emptyEnv) 0 "n-put" ∧
      firstAggregateNamed (onPut "n" 0 none emptyEnv) 0 "n-put") ∧
    (registersUnder (onDelete "n" 0 none emptyEnv) 0 "n-delete" ∧
      firstAggregateNamed (onDelete "n" 0 none emptyEnv) 0 "n-delete") ∧
    (registersUnder (S3.onObjectCreated "n" 0 none emptyEnv) 0 "n-object-created" ∧
      firstAggregateNamed (S3.onObjectCreated "n" 0 none emptyEnv) 0
        "n-object-created") ∧
    (registersUnder (S3.onObjectRemoved "n" 0 none emptyEnv) 0 "n-object-removed" ∧
      firstAggregateNamed (S3.onObjectRemoved "n" 0 none emptyEnv) 0
        "n-object-removed")) :=
  ⟨rfl, fun p hp => (List.not_mem_nil p hp).elim,
   c10_suffixed_names "n" 0 none none none emptyEnv rfl
     (fun p hp => (List.not_mem_nil p hp).elim)⟩

end AwsServerless
